import Mathlib

/-!
Verification development for the Background Job Service of the CICDpa
repository (the in-process engine created by `Application.initializeCoreServices`
in `src/dist/index.js` via `createBackgroundJobService`), together with the
shutdown path of `Application.stop`.

The engine itself (`src/services/background-job.service.ts`) is not part of the
source snapshot; only its caller `src/dist/index.js` is.  The engine definitions
below are therefore modelled from the specification, while `applicationStop`
is translated directly from `Application.stop` in `src/dist/index.js`.
-/

namespace CICDpa

/-- Status of a job record: `queued | running | succeeded | failed | timed_out | cancelled`. -/
inductive JobStatus where
  | queued
  | running
  | succeeded
  | failed
  | timed_out
  | cancelled
deriving DecidableEq, Repr

/-- Modelled from the spec: the Job Record data entity (§3 DATA MODEL) —
canonical state of one unit of work. -/
structure JobRecord where
  id : Nat
  kind : String
  payload : String
  status : JobStatus
  attempt : Nat
  maxAttempts : Nat
  createdAt : Nat
  startedAt : Option Nat
  finishedAt : Option Nat
  lastError : Option String
  correlationId : Option String
deriving DecidableEq, Repr

/-- Modelled from the spec: configuration surface of the engine (§6),
the options passed to `createBackgroundJobService`. -/
structure JobServiceConfig where
  maxConcurrentJobs : Nat
  defaultRetryAttempts : Nat
  jobTimeout : Nat
  enableRealTimeAlerts : Bool
  historicalDataRetention : Nat
  enableMetrics : Bool
deriving DecidableEq, Repr

/-- The configuration passed by `Application.initializeCoreServices`
(`src/dist/index.js` lines 181-188). -/
def deployedConfig : JobServiceConfig :=
  { maxConcurrentJobs := 5
    defaultRetryAttempts := 3
    jobTimeout := 300000
    enableRealTimeAlerts := true
    historicalDataRetention := 30
    enableMetrics := true }

/-- Modelled from the spec: the handler registry resolves a `kind` to its
declared payload validator (§4.1, §6 — validation is delegated to the
kind-specific handler). -/
abbrev Registry := List (String × (String → Bool))

/-- Modelled from the spec: an alert event pushed to the Notifier on a
job transition of interest (§4.4). -/
inductive JobEvent where
  | dispatched (id : Nat)
  | succeeded (id : Nat)
  | failedTerminal (id : Nat)
  | timedOutTerminal (id : Nat)
  | cancelled (ids : List Nat)
deriving DecidableEq, Repr

/-- Modelled from the spec: the engine state — pending FIFO queue, in-flight
slots owned by the worker pool, terminal history, draining flag, and the
Alert Emitter's sink (§2, §3 Ownership, §5). -/
@[ext]
structure EngineState where
  config : JobServiceConfig
  registry : Registry
  pending : List JobRecord
  running : List JobRecord
  history : List JobRecord
  draining : Bool
  nextId : Nat
  notifier : Option Nat
  delivered : List JobEvent
  log : List String

/-- Modelled from the spec: the initial engine state built by
`createBackgroundJobService` — empty queue and slot pool (§4.6 start). -/
def initEngine (cfg : JobServiceConfig) (reg : Registry) : EngineState :=
  { config := cfg
    registry := reg
    pending := []
    running := []
    history := []
    draining := false
    nextId := 0
    notifier := none
    delivered := []
    log := [] }

/-- Number of jobs currently holding `running` status. -/
def runningCount (s : EngineState) : Nat := s.running.length

/-- All job records owned by the engine: queued, in flight, and historical. -/
def allJobs (s : EngineState) : List JobRecord := s.pending ++ s.running ++ s.history

/-- Modelled from the spec: the admission error taxonomy (§7) —
invalid kind/payload, or engine draining. -/
inductive AdmissionError where
  | draining
  | unknownKind
  | invalidPayload
deriving DecidableEq, Repr

/-- Look up the validator registered for a kind. -/
def lookupValidator (s : EngineState) (kind : String) : Option (String → Bool) :=
  (s.registry.find? (fun kv => kv.1 == kind)).map (fun kv => kv.2)

/-- Modelled from the spec: the fresh Job Record created at admission —
`queued`, `attempt = 0`, `maxAttempts` from configuration unless
overridden per job (§3, §4.1). -/
def mkJob (s : EngineState) (kind payload : String) (maxAttemptsOverride : Option Nat)
    (now : Nat) : JobRecord :=
  { id := s.nextId
    kind := kind
    payload := payload
    status := JobStatus.queued
    attempt := 0
    maxAttempts := maxAttemptsOverride.getD s.config.defaultRetryAttempts
    createdAt := now
    startedAt := none
    finishedAt := none
    lastError := none
    correlationId := none }

/-- Modelled from the spec: the Admission Gate (§4.1) —
`submit(kind, payload, options?) -> jobId | AdmissionError`.  Rejects when
draining, when the kind is unregistered, or when the kind's declared
validator rejects the payload (§7 taxonomy: invalid kind/payload, or engine
draining); otherwise creates a `queued` record, appends it to the pending
queue and returns the id. -/
def submit (s : EngineState) (kind payload : String) (maxAttemptsOverride : Option Nat)
    (now : Nat) : Except AdmissionError (Nat × EngineState) :=
  if s.draining then Except.error AdmissionError.draining
  else
    match s.registry.find? (fun kv => kv.1 == kind) with
    | none => Except.error AdmissionError.unknownKind
    | some kv =>
        if kv.2 payload then
          Except.ok (s.nextId,
            { s with
                pending := s.pending ++ [mkJob s kind payload maxAttemptsOverride now]
                nextId := s.nextId + 1 })
        else Except.error AdmissionError.invalidPayload

/-- Alert events delivered by one `notify` call (empty unless alerts are
enabled, a sink is wired, and delivery does not fail). -/
def deliveredOf (s : EngineState) (ev : JobEvent) (notifyFails : Bool) : List JobEvent :=
  if s.config.enableRealTimeAlerts && s.notifier.isSome && !notifyFails then [ev] else []

/-- Log lines produced by one `notify` call (a failed delivery is logged
and swallowed). -/
def logOf (s : EngineState) (notifyFails : Bool) : List String :=
  if s.config.enableRealTimeAlerts && s.notifier.isSome && notifyFails then
    ["alert delivery failed"]
  else []

/-- Modelled from the spec: the Alert Emitter (§4.4) — fire-and-forget
delivery to the Notifier; a failure is logged and swallowed and never
touches the job state. -/
def emitAlert (s : EngineState) (ev : JobEvent) (notifyFails : Bool) : EngineState :=
  { s with
      delivered := s.delivered ++ deliveredOf s ev notifyFails
      log := s.log ++ logOf s notifyFails }

/-- Modelled from the spec: dispatch (§4.2, §4.3) — strict FIFO: when a slot
is free, the head of the pending queue moves into a slot with
`attempt += 1`, `status = running`, `startedAt` set. -/
def dispatchOne (s : EngineState) (now : Nat) (notifyFails : Bool) : EngineState :=
  match s.pending with
  | [] => s
  | j :: rest =>
      if s.running.length < s.config.maxConcurrentJobs then
        emitAlert
          { s with
              pending := rest
              running := s.running ++
                [{ j with status := JobStatus.running, attempt := j.attempt + 1,
                          startedAt := some now }] }
          (JobEvent.dispatched j.id) notifyFails
      else s

/-- Error description recorded for a timed-out attempt. -/
def timeoutMessage : String := "Job timed out"

/-- Modelled from the spec: completion of a running handler (§4.3) —
`status = succeeded`, terminal, `finishedAt` set, record appended to
history, terminal alert emitted. -/
def handleComplete (s : EngineState) (id now : Nat) (notifyFails : Bool) : EngineState :=
  match s.running.find? (fun r => r.id == id) with
  | none => s
  | some j =>
      emitAlert
        { s with
            running := s.running.filter (fun r => !(r.id == id))
            history := s.history ++
              [{ j with status := JobStatus.succeeded, finishedAt := some now }] }
        (JobEvent.succeeded j.id) notifyFails

/-- The alert event for a terminal failure classification. -/
def terminalEvent (terminal : JobStatus) (id : Nat) : JobEvent :=
  match terminal with
  | JobStatus.timed_out => JobEvent.timedOutTerminal id
  | _ => JobEvent.failedTerminal id

/-- Modelled from the spec: the shared failure path of the Execution
Supervisor (§4.3, §7) — a failed or timed-out attempt frees the slot; while
`attempt < maxAttempts` the job is re-enqueued at the back of the pending
queue, otherwise it becomes terminal with the given classification and is
recorded to history.  `TimeoutFailure` is treated identically to
`ExecutionFailure` for retry accounting, distinguished only in the recorded
status. -/
def settleRunning (s : EngineState) (id : Nat) (terminal : JobStatus) (err : String)
    (now : Nat) (notifyFails : Bool) : EngineState :=
  match s.running.find? (fun r => r.id == id) with
  | none => s
  | some j =>
      if j.attempt < j.maxAttempts then
        { s with
            running := s.running.filter (fun r => !(r.id == id))
            pending := s.pending ++
              [{ j with status := JobStatus.queued, lastError := some err }] }
      else
        emitAlert
          { s with
              running := s.running.filter (fun r => !(r.id == id))
              history := s.history ++
                [{ j with status := terminal, finishedAt := some now,
                          lastError := some err }] }
          (terminalEvent terminal j.id) notifyFails

/-- Modelled from the spec: graceful shutdown (§4.6) — enter draining mode,
cancel every still-queued job, force-cancel the in-flight remainder, leave
all slots idle. -/
def shutdownEngine (s : EngineState) (now : Nat) (notifyFails : Bool) : EngineState :=
  let cancelled := (s.pending ++ s.running).map
    (fun j => { j with status := JobStatus.cancelled, finishedAt := some now })
  let s1 := { s with
      draining := true
      pending := ([] : List JobRecord)
      running := ([] : List JobRecord)
      history := s.history ++ cancelled }
  if cancelled.isEmpty then s1
  else emitAlert s1 (JobEvent.cancelled (cancelled.map JobRecord.id)) notifyFails

/-- Milliseconds in `d` retention days. -/
def retentionMs (days : Nat) : Nat := days * 86400000

/-- Modelled from the spec: the retention predicate (§4.5) — keep a history
entry unless its `finishedAt` is older than `now − retention`. -/
def keepEntry (ret now : Nat) (j : JobRecord) : Bool :=
  match j.finishedAt with
  | some t => decide (now ≤ t + ret)
  | none => true

/-- Modelled from the spec: the periodic pruning sweep (§4.5) — pure
deletion of history entries past the retention window. -/
def pruneAt (s : EngineState) (now : Nat) : EngineState :=
  { s with history :=
      s.history.filter (keepEntry (retentionMs s.config.historicalDataRetention) now) }

/-- `setNotifier` — wires the Alert Emitter's sink (the caller
`Application.start` in `src/dist/index.js` lines 85-87 performs exactly one
such call at startup, passing the WebSocket service). -/
def setNotifier (s : EngineState) (n : Nat) : EngineState :=
  { s with notifier := some n }

/-- Modelled from the spec: the wiring step of `Application.start`
(`src/dist/index.js` lines 85-87) — the single startup call that hands the
Notifier to the engine. -/
def applicationStartWiring (s : EngineState) (ws : Nat) : EngineState :=
  setNotifier s ws

/-- One observable input to the engine: a submission, a scheduler dispatch,
a handler outcome, a timeout firing, a shutdown request, or a pruning tick. -/
inductive EngineEvent where
  | submit (kind payload : String) (maxAttemptsOverride : Option Nat) (now : Nat)
  | dispatch (now : Nat) (notifyFails : Bool)
  | complete (id now : Nat) (notifyFails : Bool)
  | fail (id : Nat) (err : String) (now : Nat) (notifyFails : Bool)
  | timeout (id now : Nat) (notifyFails : Bool)
  | shutdown (now : Nat) (notifyFails : Bool)
  | prune (now : Nat)
deriving DecidableEq, Repr

/-- The engine's reaction to one event. -/
def applyEvent (s : EngineState) (e : EngineEvent) : EngineState :=
  match e with
  | EngineEvent.submit kind payload ma now =>
      match submit s kind payload ma now with
      | Except.ok (_, s2) => s2
      | Except.error _ => s
  | EngineEvent.dispatch now nf => dispatchOne s now nf
  | EngineEvent.complete id now nf => handleComplete s id now nf
  | EngineEvent.fail id err now nf => settleRunning s id JobStatus.failed err now nf
  | EngineEvent.timeout id now nf => settleRunning s id JobStatus.timed_out timeoutMessage now nf
  | EngineEvent.shutdown now nf => shutdownEngine s now nf
  | EngineEvent.prune now => pruneAt s now

/-- Run the engine over a sequence of events. -/
def run (s : EngineState) (es : List EngineEvent) : EngineState :=
  es.foldl applyEvent s

/-- The job the scheduler would dispatch on this event, if any: the head of
the pending queue, and only when a slot is free. -/
def dispatchTarget (s : EngineState) (e : EngineEvent) : Option Nat :=
  match e with
  | EngineEvent.dispatch _ _ =>
      if s.running.length < s.config.maxConcurrentJobs then
        s.pending.head?.map JobRecord.id
      else none
  | _ => none

/-- Replace the notifier-failure flag carried by an event. -/
def setNotifyFlag (e : EngineEvent) (b : Bool) : EngineEvent :=
  match e with
  | EngineEvent.submit kind payload ma now => EngineEvent.submit kind payload ma now
  | EngineEvent.dispatch now _ => EngineEvent.dispatch now b
  | EngineEvent.complete id now _ => EngineEvent.complete id now b
  | EngineEvent.fail id err now _ => EngineEvent.fail id err now b
  | EngineEvent.timeout id now _ => EngineEvent.timeout id now b
  | EngineEvent.shutdown now _ => EngineEvent.shutdown now b
  | EngineEvent.prune now => EngineEvent.prune now

/-- A well-formed submission: the effective attempt ceiling is at least 1
(the deployed configuration uses `defaultRetryAttempts = 3`). -/
def goodEvent (d : Nat) : EngineEvent → Prop := fun e =>
  match e with
  | EngineEvent.submit _ _ ma _ => 1 ≤ ma.getD d
  | _ => True

instance (d : Nat) (e : EngineEvent) : Decidable (goodEvent d e) :=
  match e with
  | EngineEvent.submit _ _ ma _ => (inferInstance : Decidable (1 ≤ ma.getD d))
  | EngineEvent.dispatch _ _ => Decidable.isTrue trivial
  | EngineEvent.complete _ _ _ => Decidable.isTrue trivial
  | EngineEvent.fail _ _ _ _ => Decidable.isTrue trivial
  | EngineEvent.timeout _ _ _ => Decidable.isTrue trivial
  | EngineEvent.shutdown _ _ => Decidable.isTrue trivial
  | EngineEvent.prune _ => Decidable.isTrue trivial

/-- State of the surrounding `Application` (`src/dist/index.js`): which
collaborating services are live, which have been closed, and what has been
logged.  `bgAvailable` is false when `getBackgroundJobService()` throws or
the service's `shutdown` rejects (service never initialized or already shut
down). -/
structure AppState where
  bgAvailable : Bool
  bgShutdown : Bool
  wsService : Bool
  wsClosed : Bool
  serverListening : Bool
  serverClosed : Bool
  modulesShutdown : Bool
  dbClosed : Bool
  redisClosed : Bool
  warnings : List String
  infoLog : List String
deriving DecidableEq, Repr

/-- `Application.stop` (`src/dist/index.js` lines 108-145): shut down the
background job service inside its own try/catch (a failure is logged as a
warning and swallowed), then close the WebSocket service, the HTTP server,
the modules, the database connections, and the Redis connection. -/
def applicationStop (s : AppState) : AppState :=
  let s0 := { s with infoLog := s.infoLog ++ ["Shutting down application..."] }
  let s1 :=
    if s0.bgAvailable then { s0 with bgShutdown := true }
    else { s0 with warnings :=
      s0.warnings ++ ["Background job service not initialized or already shut down"] }
  let s2 := if s1.wsService then { s1 with wsClosed := true, wsService := false } else s1
  let s3 :=
    if s2.serverListening then
      { s2 with serverClosed := true, infoLog := s2.infoLog ++ ["Server closed"] }
    else s2
  let s4 := { s3 with modulesShutdown := true, dbClosed := true, redisClosed := true }
  { s4 with infoLog := s4.infoLog ++ ["Application shutdown complete"] }

section ProjectionLemmas

variable (s : EngineState) (ev : JobEvent) (nf : Bool)

@[simp] theorem emitAlert_pending : (emitAlert s ev nf).pending = s.pending := rfl

@[simp] theorem emitAlert_running : (emitAlert s ev nf).running = s.running := rfl

@[simp] theorem emitAlert_history : (emitAlert s ev nf).history = s.history := rfl

@[simp] theorem emitAlert_config : (emitAlert s ev nf).config = s.config := rfl

@[simp] theorem emitAlert_draining : (emitAlert s ev nf).draining = s.draining := rfl

@[simp] theorem emitAlert_nextId : (emitAlert s ev nf).nextId = s.nextId := rfl

@[simp] theorem emitAlert_notifier : (emitAlert s ev nf).notifier = s.notifier := rfl

@[simp] theorem emitAlert_registry : (emitAlert s ev nf).registry = s.registry := rfl

end ProjectionLemmas

/-- Inversion of a successful admission: the returned id is the engine's
next id and the new state appends exactly the fresh queued record. -/
theorem submit_ok_inv (s : EngineState) (kind payload : String) (ma : Option Nat)
    (now i : Nat) (s2 : EngineState)
    (h : submit s kind payload ma now = Except.ok (i, s2)) :
    i = s.nextId ∧
    s2 = { s with pending := s.pending ++ [mkJob s kind payload ma now],
                  nextId := s.nextId + 1 } := by
  unfold submit at h
  split at h
  · exact Except.noConfusion h
  · split at h
    · exact Except.noConfusion h
    · split at h
      · injection h with hp
        injection hp with h1 h2
        exact ⟨h1.symm, h2.symm⟩
      · exact Except.noConfusion h

/-- Every event leaves the engine configuration untouched. -/
theorem applyEvent_config (s : EngineState) (e : EngineEvent) :
    (applyEvent s e).config = s.config := by
  cases e with
  | submit kind payload ma now =>
      simp only [applyEvent]
      cases hs : submit s kind payload ma now with
      | error err => rfl
      | ok p =>
          obtain ⟨i, s2⟩ := p
          obtain ⟨-, rfl⟩ := submit_ok_inv s kind payload ma now i s2 hs
          rfl
  | dispatch now nf =>
      simp only [applyEvent, dispatchOne]
      split
      · rfl
      · split
        · simp
        · rfl
  | complete id now nf =>
      simp only [applyEvent, handleComplete]
      split
      · rfl
      · simp
  | fail id err now nf =>
      simp only [applyEvent, settleRunning]
      split
      · rfl
      · split
        · rfl
        · simp
  | timeout id now nf =>
      simp only [applyEvent, settleRunning]
      split
      · rfl
      · split
        · rfl
        · simp
  | shutdown now nf =>
      simp only [applyEvent, shutdownEngine]
      split
      · rfl
      · simp
  | prune now => rfl

/-- One step of `run`. -/
theorem run_cons (s : EngineState) (e : EngineEvent) (es : List EngineEvent) :
    run s (e :: es) = run (applyEvent s e) es := rfl

/-- Any predicate preserved by every single event holds along every run. -/
theorem run_preserves (P : EngineState → Prop)
    (hstep : ∀ s e, P s → P (applyEvent s e)) :
    ∀ (es : List EngineEvent) (s : EngineState), P s → P (run s es) := by
  intro es
  induction es with
  | nil => intro s h; exact h
  | cons e es ih => intro s h; exact ih _ (hstep s e h)

/-- A whole run leaves the engine configuration untouched. -/
theorem run_config (es : List EngineEvent) (s : EngineState) :
    (run s es).config = s.config := by
  induction es generalizing s with
  | nil => rfl
  | cons e es ih => rw [run_cons, ih, applyEvent_config]

/-- No single event pushes the number of running jobs above the configured
concurrency budget. -/
theorem runningCount_applyEvent (s : EngineState) (e : EngineEvent)
    (h : runningCount s ≤ s.config.maxConcurrentJobs) :
    runningCount (applyEvent s e) ≤ s.config.maxConcurrentJobs := by
  cases e with
  | submit kind payload ma now =>
      simp only [applyEvent]
      cases hs : submit s kind payload ma now with
      | error err => exact h
      | ok p =>
          obtain ⟨i, s2⟩ := p
          obtain ⟨-, rfl⟩ := submit_ok_inv s kind payload ma now i s2 hs
          exact h
  | dispatch now nf =>
      simp only [applyEvent, dispatchOne]
      split
      · exact h
      · split
        · rename_i hlt
          simp only [runningCount, emitAlert_running]
          simp [List.length_append]
          omega
        · exact h
  | complete id now nf =>
      simp only [applyEvent, handleComplete]
      split
      · exact h
      · simp only [runningCount, emitAlert_running]
        exact le_trans (by simpa using List.length_filter_le (fun r => !(r.id == id)) s.running) h
  | fail id err now nf =>
      simp only [applyEvent, settleRunning]
      split
      · exact h
      · split
        · exact le_trans (by simpa [runningCount] using
            List.length_filter_le (fun r => !(r.id == id)) s.running) h
        · simp only [runningCount, emitAlert_running]
          exact le_trans (by simpa using List.length_filter_le (fun r => !(r.id == id)) s.running) h
  | timeout id now nf =>
      simp only [applyEvent, settleRunning]
      split
      · exact h
      · split
        · exact le_trans (by simpa [runningCount] using
            List.length_filter_le (fun r => !(r.id == id)) s.running) h
        · simp only [runningCount, emitAlert_running]
          exact le_trans (by simpa using List.length_filter_le (fun r => !(r.id == id)) s.running) h
  | shutdown now nf =>
      simp only [applyEvent, shutdownEngine]
      split
      · simp [runningCount]
      · simp [runningCount]
  | prune now => exact h

/-- C1: In every reachable state of the engine, for every sequence of
submissions and other events, the number of jobs whose status is `running`
never exceeds the configured `maxConcurrentJobs` (5 in the deployed
configuration). -/
theorem claim1_running_bounded (es : List EngineEvent) (cfg : JobServiceConfig)
    (reg : Registry) :
    runningCount (run (initEngine cfg reg) es) ≤ cfg.maxConcurrentJobs ∧
    runningCount (run (initEngine deployedConfig reg) es) ≤ 5 := by
  have key : ∀ (c : JobServiceConfig) (r : Registry),
      runningCount (run (initEngine c r) es) ≤ c.maxConcurrentJobs := by
    intro c r
    have h := run_preserves (fun s => runningCount s ≤ s.config.maxConcurrentJobs)
      (fun s e hs => by
        show runningCount (applyEvent s e) ≤ (applyEvent s e).config.maxConcurrentJobs
        rw [applyEvent_config]
        exact runningCount_applyEvent s e hs)
      es (initEngine c r) (by simp [runningCount, initEngine])
    have h2 : runningCount (run (initEngine c r) es) ≤
        (run (initEngine c r) es).config.maxConcurrentJobs := h
    rw [run_config] at h2
    exact h2
  exact ⟨key cfg reg, key deployedConfig reg⟩

/-- The attempt-ceiling invariant: queued jobs still have attempts left,
in-flight and historical jobs never exceed their ceiling. -/
def AttemptInv (s : EngineState) : Prop :=
  (∀ j ∈ s.pending, j.attempt < j.maxAttempts) ∧
  (∀ j ∈ s.running, j.attempt ≤ j.maxAttempts) ∧
  (∀ j ∈ s.history, j.attempt ≤ j.maxAttempts)

/-- One well-formed event preserves the attempt-ceiling invariant. -/
theorem attemptInv_applyEvent (s : EngineState) (e : EngineEvent)
    (hg : goodEvent s.config.defaultRetryAttempts e)
    (h : AttemptInv s) : AttemptInv (applyEvent s e) := by
  obtain ⟨hp, hr, hh⟩ := h
  cases e with
  | submit kind payload ma now =>
      simp only [applyEvent]
      cases hs : submit s kind payload ma now with
      | error err => exact ⟨hp, hr, hh⟩
      | ok p =>
          obtain ⟨i, s2⟩ := p
          obtain ⟨-, rfl⟩ := submit_ok_inv s kind payload ma now i s2 hs
          refine ⟨?_, hr, hh⟩
          intro j hj
          rcases List.mem_append.1 hj with hj | hj
          · exact hp j hj
          · have hje : j = mkJob s kind payload ma now := List.mem_singleton.1 hj
            subst hje
            simpa [mkJob] using hg
  | dispatch now nf =>
      simp only [applyEvent, dispatchOne]
      split
      · exact ⟨hp, hr, hh⟩
      · rename_i j rest hpend
        split
        · refine ⟨?_, ?_, hh⟩
          · intro x hx
            exact hp x (hpend ▸ List.mem_cons_of_mem _ hx)
          · intro x hx
            rcases List.mem_append.1 hx with hx | hx
            · exact hr x hx
            · have hxe := List.mem_singleton.1 hx
              subst hxe
              have hj : j ∈ s.pending := hpend ▸ List.mem_cons_self _ _
              have := hp j hj
              simpa using this
        · exact ⟨hp, hr, hh⟩
  | complete id now nf =>
      simp only [applyEvent, handleComplete]
      split
      · exact ⟨hp, hr, hh⟩
      · rename_i j hj
        have hmem : j ∈ s.running := List.mem_of_find?_eq_some hj
        refine ⟨hp, ?_, ?_⟩
        · intro x hx
          exact hr x (List.mem_of_mem_filter hx)
        · intro x hx
          rcases List.mem_append.1 hx with hx | hx
          · exact hh x hx
          · have hxe := List.mem_singleton.1 hx
            subst hxe
            simpa using hr j hmem
  | fail id err now nf =>
      simp only [applyEvent, settleRunning]
      split
      · exact ⟨hp, hr, hh⟩
      · rename_i j hj
        have hmem : j ∈ s.running := List.mem_of_find?_eq_some hj
        split
        · rename_i hlt
          refine ⟨?_, ?_, hh⟩
          · intro x hx
            rcases List.mem_append.1 hx with hx | hx
            · exact hp x hx
            · have hxe := List.mem_singleton.1 hx
              subst hxe
              simpa using hlt
          · intro x hx
            exact hr x (List.mem_of_mem_filter hx)
        · refine ⟨hp, ?_, ?_⟩
          · intro x hx
            exact hr x (List.mem_of_mem_filter hx)
          · intro x hx
            rcases List.mem_append.1 hx with hx | hx
            · exact hh x hx
            · have hxe := List.mem_singleton.1 hx
              subst hxe
              simpa using hr j hmem
  | timeout id now nf =>
      simp only [applyEvent, settleRunning]
      split
      · exact ⟨hp, hr, hh⟩
      · rename_i j hj
        have hmem : j ∈ s.running := List.mem_of_find?_eq_some hj
        split
        · rename_i hlt
          refine ⟨?_, ?_, hh⟩
          · intro x hx
            rcases List.mem_append.1 hx with hx | hx
            · exact hp x hx
            · have hxe := List.mem_singleton.1 hx
              subst hxe
              simpa using hlt
          · intro x hx
            exact hr x (List.mem_of_mem_filter hx)
        · refine ⟨hp, ?_, ?_⟩
          · intro x hx
            exact hr x (List.mem_of_mem_filter hx)
          · intro x hx
            rcases List.mem_append.1 hx with hx | hx
            · exact hh x hx
            · have hxe := List.mem_singleton.1 hx
              subst hxe
              simpa using hr j hmem
  | shutdown now nf =>
      simp only [applyEvent, shutdownEngine]
      have hcancel : ∀ x ∈ s.history ++ (s.pending ++ s.running).map
          (fun j => { j with status := JobStatus.cancelled, finishedAt := some now }),
          x.attempt ≤ x.maxAttempts := by
        intro x hx
        rcases List.mem_append.1 hx with hx | hx
        · exact hh x hx
        · obtain ⟨y, hy, hxe⟩ := List.mem_map.1 hx
          subst hxe
          rcases List.mem_append.1 hy with hy | hy
          · simpa using le_of_lt (hp y hy)
          · simpa using hr y hy
      split
      · exact ⟨by simp, by simp, hcancel⟩
      · exact ⟨by simp, by simp, by simpa using hcancel⟩
  | prune now =>
      refine ⟨hp, hr, ?_⟩
      intro x hx
      exact hh x (List.mem_of_mem_filter hx)

/-- The attempt-ceiling invariant holds along every run of well-formed
events. -/
theorem attemptInv_run :
    ∀ (es : List EngineEvent) (s : EngineState), AttemptInv s →
      (∀ e ∈ es, goodEvent s.config.defaultRetryAttempts e) → AttemptInv (run s es) := by
  intro es
  induction es with
  | nil => intro s h _; exact h
  | cons e es ih =>
      intro s h hg
      have h1 := attemptInv_applyEvent s e (hg e (List.mem_cons_self e es)) h
      apply ih (applyEvent s e) h1
      intro e' he'
      rw [applyEvent_config]
      exact hg e' (List.mem_cons_of_mem _ he')

/-- C2: For every job record, in every reachable state of the engine, the
job's `attempt` count is less than or equal to its `maxAttempts` ceiling
(for runs whose submissions carry an effective attempt ceiling of at least
one, as the deployed `defaultRetryAttempts = 3` does). -/
theorem claim2_attempt_le_maxAttempts (es : List EngineEvent) (cfg : JobServiceConfig)
    (reg : Registry) (hg : ∀ e ∈ es, goodEvent cfg.defaultRetryAttempts e) :
    ∀ j ∈ allJobs (run (initEngine cfg reg) es), j.attempt ≤ j.maxAttempts := by
  have h := attemptInv_run es (initEngine cfg reg)
    ⟨by simp [initEngine], by simp [initEngine], by simp [initEngine]⟩ hg
  obtain ⟨hp, hr, hh⟩ := h
  intro j hj
  rcases List.mem_append.1 hj with hj | hj
  · rcases List.mem_append.1 hj with hj | hj
    · exact le_of_lt (hp j hj)
    · exact hr j hj
  · exact hh j hj

/-- A registry with one kind, `analysis`, whose declared validator rejects
the empty payload. -/
def cexRegistry : Registry := [("analysis", fun p => !(p == ""))]

/-- A freshly started engine over `cexRegistry` with the deployed
configuration: not draining, `analysis` registered. -/
def cexState : EngineState := initEngine deployedConfig cexRegistry

/-- C3 (counterexample): the engine is not draining and `analysis` is a
registered kind, yet `submit` returns an `AdmissionError` — the kind's
declared payload validator rejects the payload, a third rejection cause the
claim's `exactly when` excludes. -/
theorem claim3_counterexample :
    cexState.draining = false ∧
    (cexState.registry.map Prod.fst).contains "analysis" = true ∧
    submit cexState "analysis" "" none 0 = Except.error AdmissionError.invalidPayload :=
  ⟨rfl, rfl, rfl⟩

/-- C3 (amended): `submit` returns an `AdmissionError` exactly when the
engine is draining, the kind is unregistered, or the kind's declared
validator rejects the payload; in every other case it creates a Job Record
with status `queued` and `attempt = 0`, appends it to the back of the
pending queue, and returns the job id immediately, leaving the running
slots and the history untouched. -/
theorem claim3_submit_spec (s : EngineState) (kind payload : String) (ma : Option Nat)
    (now : Nat) :
    ((∃ err, submit s kind payload ma now = Except.error err) ↔
      s.draining = true ∨ lookupValidator s kind = none ∨
        ∃ v, lookupValidator s kind = some v ∧ v payload = false) ∧
    (∀ i s2, submit s kind payload ma now = Except.ok (i, s2) →
      i = s.nextId ∧
      s2.pending = s.pending ++ [mkJob s kind payload ma now] ∧
      (mkJob s kind payload ma now).status = JobStatus.queued ∧
      (mkJob s kind payload ma now).attempt = 0 ∧
      (mkJob s kind payload ma now).id = s.nextId ∧
      s2.running = s.running ∧ s2.history = s.history ∧
      s2.nextId = s.nextId + 1 ∧ s2.draining = s.draining) := by
  constructor
  · constructor
    · rintro ⟨err, herr⟩
      unfold submit at herr
      split at herr
      · rename_i hd
        exact Or.inl hd
      · rename_i hd
        split at herr
        · rename_i hfind
          refine Or.inr (Or.inl ?_)
          simp [lookupValidator, hfind]
        · rename_i kv hfind
          split at herr
          · exact Except.noConfusion herr
          · rename_i hval
            refine Or.inr (Or.inr ⟨kv.2, ?_, ?_⟩)
            · simp [lookupValidator, hfind]
            · simpa using hval
    · intro hcase
      unfold submit
      split
      · exact ⟨AdmissionError.draining, rfl⟩
      · rename_i hd
        rcases hcase with hdd | hnone | ⟨v, hv, hfalse⟩
        · exact absurd hdd hd
        · split
          · exact ⟨AdmissionError.unknownKind, rfl⟩
          · rename_i kv hfindeq
            simp [lookupValidator, hfindeq] at hnone
        · split
          · exact ⟨AdmissionError.unknownKind, rfl⟩
          · rename_i kv hfindeq
            simp only [lookupValidator, hfindeq, Option.map_some'] at hv
            have hveq : kv.2 = v := Option.some.inj hv
            split
            · rename_i htrue
              rw [hveq, hfalse] at htrue
              exact Bool.noConfusion htrue
            · exact ⟨AdmissionError.invalidPayload, rfl⟩
  · intro i s2 hok
    obtain ⟨h1, h2⟩ := submit_ok_inv s kind payload ma now i s2 hok
    subst h2
    exact ⟨h1, rfl, rfl, rfl, rfl, rfl, rfl, rfl, rfl⟩

/-- The engine state produced by the successful submission used to witness
the amended admission contract. -/
def c3OkState : EngineState :=
  match submit cexState "analysis" "ok" none 7 with
  | Except.ok (_, s2) => s2
  | Except.error _ => cexState

/-- Witness for the amended admission contract: a concrete successful
submission appends one queued record and bumps the id counter. -/
theorem claim3_submit_spec_witness :
    submit cexState "analysis" "ok" none 7 = Except.ok (0, c3OkState) ∧
    c3OkState.pending = cexState.pending ++ [mkJob cexState "analysis" "ok" none 7] ∧
    c3OkState.running = cexState.running ∧
    c3OkState.nextId = 1 := by
  have heq : submit cexState "analysis" "ok" none 7 = Except.ok (0, c3OkState) := rfl
  have h := (claim3_submit_spec cexState "analysis" "ok" none 7).2 0 c3OkState heq
  exact ⟨heq, h.2.1, h.2.2.2.2.2.1, h.2.2.2.2.2.2.2.1⟩

/-- C4: when the `jobTimeout` timer (default 300000 ms in the deployed
configuration) fires for a still-running attempt, the attempt is abandoned
and classified `timed_out`; a timed-out attempt counts against the same
attempt ceiling as a failed one, so the job is re-enqueued at the back of
the pending queue exactly when `attempt < maxAttempts` and becomes terminal
otherwise — the timeout path is the failure path with a different recorded
status. -/
theorem claim4_timeout_retry (s : EngineState) (id now : Nat) (b : Bool) (j : JobRecord)
    (hj : s.running.find? (fun r => r.id == id) = some j) :
    (j.attempt < j.maxAttempts →
       (applyEvent s (EngineEvent.timeout id now b)).pending =
         s.pending ++
           [{ j with status := JobStatus.queued, lastError := some timeoutMessage }] ∧
       (applyEvent s (EngineEvent.timeout id now b)).history = s.history) ∧
    (j.maxAttempts ≤ j.attempt →
       (applyEvent s (EngineEvent.timeout id now b)).history =
         s.history ++
           [{ j with status := JobStatus.timed_out, finishedAt := some now,
                     lastError := some timeoutMessage }] ∧
       (applyEvent s (EngineEvent.timeout id now b)).pending = s.pending) ∧
    (applyEvent s (EngineEvent.timeout id now b)).running =
      s.running.filter (fun r => !(r.id == id)) ∧
    (∀ err, applyEvent s (EngineEvent.timeout id now b) =
        settleRunning s id JobStatus.timed_out timeoutMessage now b ∧
      applyEvent s (EngineEvent.fail id err now b) =
        settleRunning s id JobStatus.failed err now b) ∧
    deployedConfig.jobTimeout = 300000 := by
  refine ⟨?_, ?_, ?_, fun err => ⟨rfl, rfl⟩, rfl⟩
  · intro hlt
    simp only [applyEvent, settleRunning, hj]
    rw [if_pos hlt]
    exact ⟨rfl, rfl⟩
  · intro hge
    simp only [applyEvent, settleRunning, hj]
    rw [if_neg (not_lt.2 hge)]
    exact ⟨rfl, rfl⟩
  · simp only [applyEvent, settleRunning, hj]
    split
    · rfl
    · rfl

/-- A concrete in-flight job used to witness the timeout semantics. -/
def c4Job : JobRecord :=
  { id := 5, kind := "analysis", payload := "x", status := JobStatus.running,
    attempt := 1, maxAttempts := 3, createdAt := 0, startedAt := some 0,
    finishedAt := none, lastError := none, correlationId := none }

/-- An engine state with `c4Job` occupying one slot. -/
def c4State : EngineState := { cexState with running := [c4Job] }

/-- Witness for the timeout semantics: the concrete job, timed out on its
first of three attempts, is re-enqueued at the back and its slot is freed. -/
theorem claim4_timeout_retry_witness :
    (applyEvent c4State (EngineEvent.timeout 5 100 false)).pending =
      c4State.pending ++
        [{ c4Job with status := JobStatus.queued, lastError := some timeoutMessage }] ∧
    (applyEvent c4State (EngineEvent.timeout 5 100 false)).running = [] := by
  have h := claim4_timeout_retry c4State 5 100 false c4Job rfl
  refine ⟨(h.1 (by decide)).1, ?_⟩
  rw [h.2.2.1]
  rfl

/-- The ids of the pending queue, front first. -/
def pendingIds (s : EngineState) : List Nat := s.pending.map JobRecord.id

/-- In a duplicate-free queue, the job behind another is never the head:
popping the head either dispatches the earlier job or keeps the pair in
order. -/
theorem head_not_later (i j p : Nat) (t : List Nat)
    (hnd : (p :: t).Nodup) (hij : [i, j].Sublist (p :: t)) :
    p ≠ j ∧ (i = p ∨ [i, j].Sublist t) := by
  cases hij with
  | cons _ h' =>
      have hj : j ∈ t := h'.subset (by simp)
      refine ⟨fun hpj => ?_, Or.inr h'⟩
      subst hpj
      exact (List.nodup_cons.1 hnd).1 hj
  | cons₂ _ h' =>
      have hj : j ∈ t := h'.subset (by simp)
      refine ⟨fun hpj => ?_, Or.inl rfl⟩
      subst hpj
      exact (List.nodup_cons.1 hnd).1 hj

/-- C5: dispatch is strict FIFO over the pending queue.  First, with
duplicate-free ids, no event ever dispatches a job ahead of one queued
before it: either the earlier job is the one dispatched, or the pair keeps
its order in the queue (or shutdown empties the queue, dispatching
nothing).  Second, a job re-enqueued after a failure or timeout is placed
at the back of the queue.  Third, a dispatch takes exactly the head of the
queue, subject only to slot availability. -/
theorem claim5_fifo_order :
    (∀ (s : EngineState) (e : EngineEvent) (i j : Nat),
       (pendingIds s).Nodup → [i, j].Sublist (pendingIds s) →
       dispatchTarget s e ≠ some j ∧
         (dispatchTarget s e = some i ∨
          [i, j].Sublist (pendingIds (applyEvent s e)) ∨
          (applyEvent s e).pending = [])) ∧
    (∀ (s : EngineState) (id now : Nat) (b : Bool) (err : String) (jj : JobRecord),
       s.running.find? (fun r => r.id == id) = some jj → jj.attempt < jj.maxAttempts →
       (applyEvent s (EngineEvent.fail id err now b)).pending =
         s.pending ++ [{ jj with status := JobStatus.queued, lastError := some err }] ∧
       (applyEvent s (EngineEvent.timeout id now b)).pending =
         s.pending ++
           [{ jj with status := JobStatus.queued, lastError := some timeoutMessage }]) ∧
    (∀ (s : EngineState) (jj : JobRecord) (rest : List JobRecord) (now : Nat) (b : Bool),
       s.pending = jj :: rest → s.running.length < s.config.maxConcurrentJobs →
       (applyEvent s (EngineEvent.dispatch now b)).pending = rest ∧
       (applyEvent s (EngineEvent.dispatch now b)).running =
         s.running ++
           [{ jj with status := JobStatus.running, attempt := jj.attempt + 1,
                      startedAt := some now }]) := by
  refine ⟨?_, ?_, ?_⟩
  · intro s e i j hnd hij
    cases e with
    | submit kind payload ma now =>
        refine ⟨by simp [dispatchTarget], Or.inr (Or.inl ?_)⟩
        simp only [applyEvent]
        cases hs : submit s kind payload ma now with
        | error err => exact hij
        | ok p =>
            obtain ⟨ii, s2⟩ := p
            obtain ⟨-, rfl⟩ := submit_ok_inv s kind payload ma now ii s2 hs
            simpa [pendingIds] using
              (hij.trans (List.sublist_append_left (pendingIds s) [(mkJob s kind payload ma now).id]))
    | dispatch now nf =>
        cases hpend : s.pending with
        | nil =>
            rw [pendingIds, hpend] at hij
            simp at hij
        | cons p rest =>
            have hnd2 : (p.id :: rest.map JobRecord.id).Nodup := by
              rw [pendingIds, hpend] at hnd
              simpa using hnd
            have hij2 : [i, j].Sublist (p.id :: rest.map JobRecord.id) := by
              rw [pendingIds, hpend] at hij
              simpa using hij
            have hh := head_not_later i j p.id (rest.map JobRecord.id) hnd2 hij2
            by_cases hlt : s.running.length < s.config.maxConcurrentJobs
            · constructor
              · simp only [dispatchTarget, hpend]
                rw [if_pos hlt]
                simpa using hh.1
              · rcases hh.2 with h1 | h1
                · left
                  simp only [dispatchTarget, hpend]
                  rw [if_pos hlt]
                  simp [h1]
                · right; left
                  simp only [applyEvent, dispatchOne, hpend]
                  rw [if_pos hlt]
                  simpa [pendingIds] using h1
            · constructor
              · simp only [dispatchTarget]
                rw [if_neg hlt]
                simp
              · right; left
                simp only [applyEvent, dispatchOne, hpend]
                rw [if_neg hlt]
                exact hij
    | complete id2 now nf =>
        refine ⟨by simp [dispatchTarget], Or.inr (Or.inl ?_)⟩
        simp only [applyEvent, handleComplete]
        split
        · exact hij
        · simpa [pendingIds] using hij
    | fail id2 err now nf =>
        refine ⟨by simp [dispatchTarget], Or.inr (Or.inl ?_)⟩
        simp only [applyEvent, settleRunning]
        split
        · exact hij
        · split
          · simpa [pendingIds] using
              (hij.trans (List.sublist_append_left (pendingIds s) _))
          · simpa [pendingIds] using hij
    | timeout id2 now nf =>
        refine ⟨by simp [dispatchTarget], Or.inr (Or.inl ?_)⟩
        simp only [applyEvent, settleRunning]
        split
        · exact hij
        · split
          · simpa [pendingIds] using
              (hij.trans (List.sublist_append_left (pendingIds s) _))
          · simpa [pendingIds] using hij
    | shutdown now nf =>
        refine ⟨by simp [dispatchTarget], Or.inr (Or.inr ?_)⟩
        simp only [applyEvent, shutdownEngine]
        split
        · rfl
        · simp
    | prune now =>
        exact ⟨by simp [dispatchTarget], Or.inr (Or.inl hij)⟩
  · intro s id now b err jj hfind hlt
    constructor
    · simp only [applyEvent, settleRunning, hfind]
      rw [if_pos hlt]
    · simp only [applyEvent, settleRunning, hfind]
      rw [if_pos hlt]
  · intro s jj rest now b hpend hlt
    constructor
    · simp only [applyEvent, dispatchOne, hpend]
      rw [if_pos hlt]
      rfl
    · simp only [applyEvent, dispatchOne, hpend]
      rw [if_pos hlt]
      rfl

/-- Shutting down an already fully drained engine changes nothing. -/
theorem shutdownEngine_drained (S : EngineState) (hp : S.pending = [])
    (hr : S.running = []) (hd : S.draining = true) (t : Nat) (b : Bool) :
    shutdownEngine S t b = S := by
  unfold shutdownEngine
  rw [hp, hr]
  simp only [List.nil_append, List.map_nil, List.isEmpty_nil, if_true]
  apply EngineState.ext <;> simp [hp, hr, hd]

/-- C6: shutdown is idempotent — after a shutdown has completed, a second
shutdown (at any later instant, with any notifier outcome) changes nothing:
the final drained state is produced exactly once. -/
theorem claim6_shutdown_idempotent (s : EngineState) (t1 t2 : Nat) (b1 b2 : Bool) :
    applyEvent (applyEvent s (EngineEvent.shutdown t1 b1)) (EngineEvent.shutdown t2 b2) =
      applyEvent s (EngineEvent.shutdown t1 b1) := by
  have hp : (shutdownEngine s t1 b1).pending = [] := by
    simp only [shutdownEngine]
    split <;> simp
  have hr : (shutdownEngine s t1 b1).running = [] := by
    simp only [shutdownEngine]
    split <;> simp
  have hd : (shutdownEngine s t1 b1).draining = true := by
    simp only [shutdownEngine]
    split <;> simp
  show shutdownEngine (shutdownEngine s t1 b1) t2 b2 = shutdownEngine s t1 b1
  exact shutdownEngine_drained _ hp hr hd t2 b2

/-- A history entry survives pruning exactly when its `finishedAt` (if set)
is within the retention window. -/
theorem keepEntry_iff (ret now : Nat) (j : JobRecord) :
    keepEntry ret now j = true ↔ ∀ t, j.finishedAt = some t → now ≤ t + ret := by
  unfold keepEntry
  cases hf : j.finishedAt with
  | none => simp
  | some t => simp

/-- Filtering a list twice with the same predicate equals filtering once. -/
theorem filter_twice (p : JobRecord → Bool) (l : List JobRecord) :
    (l.filter p).filter p = l.filter p := by
  induction l with
  | nil => rfl
  | cons a l ih =>
      by_cases h : p a
      · simp [List.filter_cons, h, ih]
      · simp [List.filter_cons, h, ih]

/-- C7: `prune(now)` removes exactly the history entries whose `finishedAt`
is older than `now − retention` (retention = `historicalDataRetention` days,
30 days = 2592000000 ms in the deployed configuration): an entry one second
older than the boundary is removed, one a second inside it is kept, and
pruning twice with the same `now` removes nothing further. -/
theorem claim7_prune_retention :
    (∀ (s : EngineState) (now : Nat) (e : JobRecord),
       e ∈ (applyEvent s (EngineEvent.prune now)).history ↔
         e ∈ s.history ∧ ∀ t, e.finishedAt = some t →
           now ≤ t + retentionMs s.config.historicalDataRetention) ∧
    (∀ (s : EngineState) (now t : Nat) (e : JobRecord),
       e ∈ s.history → e.finishedAt = some t →
       t + retentionMs s.config.historicalDataRetention + 1000 = now →
       e ∉ (applyEvent s (EngineEvent.prune now)).history) ∧
    (∀ (s : EngineState) (now t : Nat) (e : JobRecord),
       e ∈ s.history → e.finishedAt = some t →
       t + retentionMs s.config.historicalDataRetention = now + 1000 →
       e ∈ (applyEvent s (EngineEvent.prune now)).history) ∧
    (∀ (s : EngineState) (now : Nat),
       applyEvent (applyEvent s (EngineEvent.prune now)) (EngineEvent.prune now) =
         applyEvent s (EngineEvent.prune now)) ∧
    retentionMs deployedConfig.historicalDataRetention = 2592000000 := by
  have hmem : ∀ (s : EngineState) (now : Nat) (e : JobRecord),
      e ∈ (applyEvent s (EngineEvent.prune now)).history ↔
        e ∈ s.history ∧ ∀ t, e.finishedAt = some t →
          now ≤ t + retentionMs s.config.historicalDataRetention := by
    intro s now e
    show e ∈ s.history.filter
      (keepEntry (retentionMs s.config.historicalDataRetention) now) ↔ _
    rw [List.mem_filter, keepEntry_iff]
  refine ⟨hmem, ?_, ?_, ?_, rfl⟩
  · intro s now t e he hf harith
    rw [hmem]
    rintro ⟨-, hk⟩
    have := hk t hf
    omega
  · intro s now t e he hf harith
    rw [hmem]
    refine ⟨he, fun t' hf' => ?_⟩
    rw [hf] at hf'
    obtain rfl : t = t' := Option.some.inj hf'
    omega
  · intro s now
    show pruneAt (pruneAt s now) now = pruneAt s now
    unfold pruneAt
    apply EngineState.ext <;> simp [filter_twice]

/-- C8: a failure of the Notifier while delivering an alert never alters any
job record: for every event, the queued, running, and historical job state
(and the draining flag and id counter) are identical whether or not alert
delivery fails, and a failing delivery by itself leaves all job state
untouched. -/
theorem claim8_notifier_failure_frame (s : EngineState) (e : EngineEvent) (b1 b2 : Bool) :
    (applyEvent s (setNotifyFlag e b1)).pending = (applyEvent s (setNotifyFlag e b2)).pending ∧
    (applyEvent s (setNotifyFlag e b1)).running = (applyEvent s (setNotifyFlag e b2)).running ∧
    (applyEvent s (setNotifyFlag e b1)).history = (applyEvent s (setNotifyFlag e b2)).history ∧
    (applyEvent s (setNotifyFlag e b1)).draining = (applyEvent s (setNotifyFlag e b2)).draining ∧
    (applyEvent s (setNotifyFlag e b1)).nextId = (applyEvent s (setNotifyFlag e b2)).nextId ∧
    (∀ ev, (emitAlert s ev true).pending = s.pending ∧
      (emitAlert s ev true).running = s.running ∧
      (emitAlert s ev true).history = s.history) := by
  refine ⟨?_, ?_, ?_, ?_, ?_, fun ev => ⟨rfl, rfl, rfl⟩⟩ <;>
    cases e <;>
      simp only [setNotifyFlag, applyEvent, dispatchOne, handleComplete, settleRunning,
        shutdownEngine, pruneAt] <;>
      (repeat' split) <;> simp_all

/-- C9: the engine exposes `setNotifier`, which wires the Alert Emitter's
sink and changes nothing else; `Application.start` performs exactly this
single wiring call at startup. -/
theorem claim9_setNotifier (s : EngineState) (n : Nat) :
    (setNotifier s n).notifier = some n ∧
    applicationStartWiring s n = setNotifier s n ∧
    (setNotifier s n).pending = s.pending ∧
    (setNotifier s n).running = s.running ∧
    (setNotifier s n).history = s.history ∧
    (setNotifier s n).config = s.config ∧
    (setNotifier s n).draining = s.draining ∧
    (setNotifier s n).nextId = s.nextId ∧
    (setNotifier s n).delivered = s.delivered :=
  ⟨rfl, rfl, rfl, rfl, rfl, rfl, rfl, rfl, rfl⟩

/-- C10: if the background job service's shutdown throws during application
stop (service never initialized or already shut down), `Application.stop`
logs a warning, swallows the error, and still closes the WebSocket service,
the HTTP server, the modules, the database connections, and the Redis
connection. -/
theorem claim10_stop_resilient (s : AppState)
    (hbg : s.bgAvailable = false) (hws : s.wsService = true)
    (hsrv : s.serverListening = true) :
    (applicationStop s).warnings =
      s.warnings ++ ["Background job service not initialized or already shut down"] ∧
    (applicationStop s).wsClosed = true ∧
    (applicationStop s).wsService = false ∧
    (applicationStop s).serverClosed = true ∧
    (applicationStop s).modulesShutdown = true ∧
    (applicationStop s).dbClosed = true ∧
    (applicationStop s).redisClosed = true := by
  simp [applicationStop, hbg, hws, hsrv]

/-- The registry used by the concrete attempt-ceiling run. -/
def c2Registry : Registry := [("a", fun _ => true)]

/-- A concrete run: submit, dispatch, one failure (which re-enqueues). -/
def c2Events : List EngineEvent :=
  [EngineEvent.submit "a" "p" none 0, EngineEvent.dispatch 0 false,
   EngineEvent.fail 0 "boom" 1 false]

/-- The record produced by the concrete run: one attempt spent, two left. -/
def c2Job : JobRecord :=
  { id := 0, kind := "a", payload := "p", status := JobStatus.queued,
    attempt := 1, maxAttempts := 3, createdAt := 0, startedAt := some 0,
    finishedAt := none, lastError := some "boom", correlationId := none }

/-- Witness for the attempt ceiling: the job of the concrete run satisfies
`attempt ≤ maxAttempts`. -/
theorem claim2_attempt_le_maxAttempts_witness :
    c2Job ∈ allJobs (run (initEngine deployedConfig c2Registry) c2Events) ∧
    c2Job.attempt ≤ c2Job.maxAttempts :=
  ⟨by decide,
   claim2_attempt_le_maxAttempts c2Events deployedConfig c2Registry (by decide)
     c2Job (by decide)⟩

/-- The job at the front of the concrete FIFO queue. -/
def c5JobA : JobRecord :=
  { id := 1, kind := "analysis", payload := "a", status := JobStatus.queued,
    attempt := 0, maxAttempts := 3, createdAt := 0, startedAt := none,
    finishedAt := none, lastError := none, correlationId := none }

/-- The job behind `c5JobA` in the concrete FIFO queue. -/
def c5JobB : JobRecord := { c5JobA with id := 2, payload := "b" }

/-- An engine state with two queued jobs and all slots free. -/
def c5State : EngineState := { cexState with pending := [c5JobA, c5JobB] }

/-- Witness for FIFO order: with jobs 1 and 2 queued in that order, a
dispatch never takes job 2, takes exactly job 1, and a concrete requeue
lands at the back. -/
theorem claim5_fifo_order_witness :
    dispatchTarget c5State (EngineEvent.dispatch 0 false) ≠ some 2 ∧
    dispatchTarget c5State (EngineEvent.dispatch 0 false) = some 1 ∧
    (applyEvent c4State (EngineEvent.fail 5 "boom" 9 false)).pending =
      c4State.pending ++
        [{ c4Job with status := JobStatus.queued, lastError := some "boom" }] ∧
    (applyEvent c5State (EngineEvent.dispatch 0 false)).pending = [c5JobB] := by
  have h1 := claim5_fifo_order.1 c5State (EngineEvent.dispatch 0 false) 1 2
    (by decide) (List.Sublist.refl _)
  have h2 := (claim5_fifo_order.2.1 c4State 5 9 false "boom" c4Job rfl (by decide)).1
  have h3 := (claim5_fifo_order.2.2 c5State c5JobA [c5JobB] 0 false rfl (by decide)).1
  exact ⟨h1.1, by decide, h2, h3⟩

/-- A configuration with a zero-day retention window, for the boundary
witness. -/
def c7Config : JobServiceConfig := { deployedConfig with historicalDataRetention := 0 }

/-- A history entry one second older than the retention boundary. -/
def c7Old : JobRecord :=
  { c4Job with id := 7, status := JobStatus.succeeded, finishedAt := some 4000 }

/-- A history entry one second inside the retention boundary. -/
def c7New : JobRecord :=
  { c4Job with id := 8, status := JobStatus.succeeded, finishedAt := some 6000 }

/-- An engine state holding both boundary history entries. -/
def c7State : EngineState :=
  { initEngine c7Config cexRegistry with history := [c7Old, c7New] }

/-- Witness for pruning: at `now = 5000` the entry finished at 4000 is
removed and the entry finished at 6000 is kept. -/
theorem claim7_prune_retention_witness :
    c7Old ∉ (applyEvent c7State (EngineEvent.prune 5000)).history ∧
    c7New ∈ (applyEvent c7State (EngineEvent.prune 5000)).history :=
  ⟨claim7_prune_retention.2.1 c7State 5000 4000 c7Old (by decide) rfl (by decide),
   claim7_prune_retention.2.2.1 c7State 5000 6000 c7New (by decide) rfl (by decide)⟩

/-- A concrete application state in which the background job service is
unavailable while the WebSocket service and HTTP server are live. -/
def c10State : AppState :=
  { bgAvailable := false, bgShutdown := false, wsService := true, wsClosed := false,
    serverListening := true, serverClosed := false, modulesShutdown := false,
    dbClosed := false, redisClosed := false, warnings := [], infoLog := [] }

/-- Witness for the resilient stop: on the concrete state the warning is
logged and every collaborator still gets closed. -/
theorem claim10_stop_resilient_witness :
    (applicationStop c10State).warnings =
      ["Background job service not initialized or already shut down"] ∧
    (applicationStop c10State).wsClosed = true ∧
    (applicationStop c10State).serverClosed = true ∧
    (applicationStop c10State).modulesShutdown = true ∧
    (applicationStop c10State).dbClosed = true ∧
    (applicationStop c10State).redisClosed = true := by
  have h := claim10_stop_resilient c10State rfl rfl rfl
  exact ⟨by simpa using h.1, h.2.1, h.2.2.2.1, h.2.2.2.2.1, h.2.2.2.2.2.1,
    h.2.2.2.2.2.2⟩

end CICDpa
